import Mathlib

/-!
Verification of the reconciliation core of `azure-k8s-dns`.

This file shallowly embeds the repository's Go sources:

* the DNS client (`AzureDNSConfig.UpsertDNSRecords`, `DeleteDNSRecords`,
  `createOrUpdateARecordSet`, `createOrUpdateAAAARecordSet`), modelled over an
  explicit zone store whose `CreateOrUpdate` fully replaces the record set held
  for a `(relative name, record kind)` key and whose `Delete` removes it; the
  external Azure control plane's per-call failures are supplied by an oracle
  (`AzureEnv`), `none` meaning the call succeeds;
* the Service controller (`ServiceReconciler.Reconcile`, the draft guarded by
  `controllerutil.ContainsFinalizer`), modelled as a pure function of the
  fetched `Service` and an effect oracle (`Effects`) for the fallible DNS and
  Kubernetes `Update` calls; it returns the trace of calls issued in order, the
  error handed back to the dispatcher, and the Service as persisted in the
  cluster when the reconcile returns.

The `Get` not-found path returns before any modelled call, so theorems start
from a fetched `Service` value.
-/

namespace AzureK8sDNS

/-- DNS record kinds used by the client (`armprivatedns.RecordTypeA`,
`RecordTypeAAAA`, `RecordTypeTXT`). -/
inductive RecordKind
  | A
  | AAAA
  | TXT
deriving DecidableEq, Repr

/-- Payload stored for one record set: the TTL and the address strings
(`RecordSetProperties`). -/
structure RecordSet where
  ttl : Int
  addrs : List String
deriving DecidableEq, Repr

/-- The external zone: a finite association of `(relative name, kind)` keys to
record sets, owned by the DNS control plane. -/
abbrev Zone := List ((String × RecordKind) × RecordSet)

/-- Look up the record set the zone holds for a key. -/
def zoneGet : Zone → String × RecordKind → Option RecordSet
  | [], _ => none
  | (k', v') :: z, k => if k' = k then some v' else zoneGet z k

/-- Store semantics of a successful `CreateOrUpdate`: fully replace the record
set held for the key (or append a fresh entry). -/
def zoneSet : Zone → String × RecordKind → RecordSet → Zone
  | [], k, v => [(k, v)]
  | (k', v') :: z, k, v => if k' = k then (k, v) :: z else (k', v') :: zoneSet z k v

/-- Store semantics of a successful `Delete`: drop every entry for the key. -/
def zoneRemove : Zone → String × RecordKind → Zone
  | [], _ => []
  | (k', v') :: z, k => if k' = k then zoneRemove z k else (k', v') :: zoneRemove z k

/-- Address list the zone holds for a key (empty when the key is absent). -/
def zoneAddrs (z : Zone) (k : String × RecordKind) : List String :=
  match zoneGet z k with
  | some rs => rs.addrs
  | none => []

/-- Oracle standing for the external Azure record-sets client: which calls
fail, as a function of the key they address; `none` means success. -/
structure AzureEnv where
  createOrUpdateErr : String → RecordKind → Option String
  deleteErr : String → RecordKind → Option String

/-- Embeds `DNSClient.CreateOrUpdate`: on success the record set for the key
is fully replaced; on failure the zone is untouched. -/
def createOrUpdate (env : AzureEnv) (z : Zone) (name : String) (kind : RecordKind)
    (rs : RecordSet) : Zone × Option String :=
  match env.createOrUpdateErr name kind with
  | some e => (z, some e)
  | none => (zoneSet z (name, kind) rs, none)

/-- Embeds `strings.Count(s, sep)` for a single-character separator: the
number of occurrences of the character. -/
def stringsCount (s : String) (c : Char) : Nat := s.toList.count c

/-- Split a character list on a separator character; the resulting parts are
the separator-delimited groups of the string (used to state the claim's
notion of colon-separated groups). -/
def splitGroups (c : Char) : List Char → List (List Char)
  | [] => [[]]
  | a :: rest =>
    let r := splitGroups c rest
    if a = c then [] :: r
    else
      match r with
      | g :: gs => (a :: g) :: gs
      | [] => [[a]]

/-- The address-classification loop at the top of `UpsertDNSRecords`, factored
out: an address with `strings.Count(ip, ":") >= 2` is appended to the IPv6
bucket, every other address to the IPv4 bucket, preserving input order. -/
def classifyAddrs : List String → List String × List String
  | [] => ([], [])
  | ip :: rest =>
    let p := classifyAddrs rest
    if 2 ≤ stringsCount ip ':' then (p.1, ip :: p.2) else (ip :: p.1, p.2)

/-- Embeds `AzureDNSConfig.createOrUpdateARecordSet`: build the A record set
with TTL 300 from the IPv4 list and issue `CreateOrUpdate`. -/
def createOrUpdateARecordSet (env : AzureEnv) (z : Zone) (dnsName : String)
    (ips : List String) : Zone × Option String :=
  createOrUpdate env z dnsName RecordKind.A { ttl := 300, addrs := ips }

/-- Embeds `AzureDNSConfig.createOrUpdateAAAARecordSet`: build the AAAA record
set with TTL 300 from the IPv6 list and issue `CreateOrUpdate`. -/
def createOrUpdateAAAARecordSet (env : AzureEnv) (z : Zone) (dnsName : String)
    (ips : List String) : Zone × Option String :=
  createOrUpdate env z dnsName RecordKind.AAAA { ttl := 300, addrs := ips }

/-- Embeds `AzureDNSConfig.UpsertDNSRecords`: classify the addresses, upsert
the A record set when the IPv4 bucket is non-empty, then the AAAA record set
when the IPv6 bucket is non-empty; an empty input reaches neither call and the
function returns with no error. -/
def UpsertDNSRecords (env : AzureEnv) (z : Zone) (dnsName : String)
    (ipList : List String) : Zone × Option String :=
  let ipv4Addrs := (classifyAddrs ipList).1
  let ipv6Addrs := (classifyAddrs ipList).2
  match (if 0 < ipv4Addrs.length then createOrUpdateARecordSet env z dnsName ipv4Addrs
         else (z, none)) with
  | (z1, some e) => (z1, some (("error upserting A records: ") ++ e))
  | (z1, none) =>
    match (if 0 < ipv6Addrs.length then createOrUpdateAAAARecordSet env z1 dnsName ipv6Addrs
           else (z1, none)) with
    | (z2, some e) => (z2, some (("error upserting AAAA records: ") ++ e))
    | (z2, none) => (z2, none)

/-- Result of `DeleteDNSRecords`: the `Delete` calls issued in order, the zone
afterwards, and the returned error. -/
structure DeleteOut where
  attempts : List (String × RecordKind)
  zone : Zone
  err : Option String
deriving DecidableEq, Repr

/-- Embeds `AzureDNSConfig.DeleteDNSRecords`: delete the A record set; on
error return at once (the zone, in particular the AAAA record set, is not
touched); otherwise delete the AAAA record set; the error is `none` exactly
when both deletes succeed. -/
def DeleteDNSRecords (env : AzureEnv) (z : Zone) (dnsName : String) : DeleteOut :=
  match env.deleteErr dnsName RecordKind.A with
  | some e =>
    { attempts := [(dnsName, RecordKind.A)], zone := z
      err := some (("error deleting A records: ") ++ e) }
  | none =>
    let z1 := zoneRemove z (dnsName, RecordKind.A)
    match env.deleteErr dnsName RecordKind.AAAA with
    | some e =>
      { attempts := [(dnsName, RecordKind.A), (dnsName, RecordKind.AAAA)], zone := z1
        err := some (("error deleting AAAA records: ") ++ e) }
    | none =>
      { attempts := [(dnsName, RecordKind.A), (dnsName, RecordKind.AAAA)]
        zone := zoneRemove z1 (dnsName, RecordKind.AAAA)
        err := none }

/-- Fields of `corev1.Service` the reconciler reads or writes. `namespaceName`
stands for the Go `Namespace` field, which is a reserved word here. -/
structure Service where
  name : String
  namespaceName : String
  clusterIP : String
  clusterIPs : List String
  deletionTimestamp : Option String
  finalizers : List String
deriving DecidableEq, Repr

/-- Embeds `const finalizer = "dns.azure.com"`. -/
def finalizer : String := "dns.azure.com"

/-- Embeds `controllerutil.ContainsFinalizer`. -/
def ContainsFinalizer (svc : Service) (f : String) : Bool :=
  svc.finalizers.contains f

/-- Embeds `controllerutil.AddFinalizer`: append the token when absent. -/
def AddFinalizer (svc : Service) (f : String) : Service :=
  if ContainsFinalizer svc f then svc
  else { svc with finalizers := svc.finalizers ++ [f] }

/-- Embeds `controllerutil.RemoveFinalizer`: drop every occurrence of the
token. -/
def RemoveFinalizer (svc : Service) (f : String) : Service :=
  { svc with finalizers := svc.finalizers.filter (fun s => s != f) }

/-- Embeds `dnsName := fmt.Sprintf("%s.%s.svc", svc.Name, svc.Namespace)`. -/
def resolveServiceDNSName (svc : Service) : String :=
  svc.name ++ "." ++ svc.namespaceName ++ ".svc"

/-- One externally visible call issued by the reconciler. -/
inductive Event
  | dnsDelete (dnsName : String)
  | dnsUpsert (dnsName : String) (ips : List String)
  | kubeUpdate (svc : Service)
deriving DecidableEq, Repr

/-- Oracle for the reconciler's fallible collaborator calls within one
reconcile invocation: the DNS client's `DeleteDNSRecords` and
`UpsertDNSRecords` and the Kubernetes `Update`, each returning an error or
`none` for success. -/
structure Effects where
  dnsDelete : String → Option String
  dnsUpsert : String → List String → Option String
  kubeUpdate : Service → Option String

/-- Result of one reconcile: the calls issued in order, the error returned to
the dispatcher (`none` for success), and the Service as persisted in the
cluster when the reconcile returns (the argument of the last successful
`Update`, or the fetched Service when no `Update` succeeded). -/
structure ReconOut where
  trace : List Event
  err : Option String
  stored : Service
deriving DecidableEq, Repr

/-- Tail of `ServiceReconciler.Reconcile` after the deletion branch: add the
finalizer, persist it via `Update`, and on success upsert the Service's
cluster IPs. `tr` is the trace already issued and `stored` the Service
persisted so far. -/
def converge (eff : Effects) (dnsName : String) (tr : List Event) (svc : Service)
    (stored : Service) : ReconOut :=
  let svc2 := AddFinalizer svc finalizer
  match eff.kubeUpdate svc2 with
  | some e => { trace := tr ++ [Event.kubeUpdate svc2], err := some e, stored := stored }
  | none =>
    match eff.dnsUpsert dnsName svc2.clusterIPs with
    | some e =>
      { trace := tr ++ [Event.kubeUpdate svc2, Event.dnsUpsert dnsName svc2.clusterIPs]
        err := some e, stored := svc2 }
    | none =>
      { trace := tr ++ [Event.kubeUpdate svc2, Event.dnsUpsert dnsName svc2.clusterIPs]
        err := none, stored := svc2 }

/-- Embeds `ServiceReconciler.Reconcile` for a fetched Service: skip headless
Services; for a Service being deleted with the finalizer present, delete the
DNS records and, on success only, persist the finalizer removal. Note the Go
code does not return after the deletion branch: it falls through into the
convergence tail (`AddFinalizer`, `Update`, `UpsertDNSRecords`). -/
def Reconcile (eff : Effects) (svc : Service) : ReconOut :=
  if svc.clusterIP = "None" then { trace := [], err := none, stored := svc }
  else
    let dnsName := resolveServiceDNSName svc
    if svc.deletionTimestamp.isSome then
      if !ContainsFinalizer svc finalizer then { trace := [], err := none, stored := svc }
      else
        match eff.dnsDelete dnsName with
        | some e => { trace := [Event.dnsDelete dnsName], err := some e, stored := svc }
        | none =>
          let svc1 := RemoveFinalizer svc finalizer
          match eff.kubeUpdate svc1 with
          | some e =>
            { trace := [Event.dnsDelete dnsName, Event.kubeUpdate svc1]
              err := some e, stored := svc }
          | none =>
            converge eff dnsName [Event.dnsDelete dnsName, Event.kubeUpdate svc1] svc1 svc1
    else converge eff dnsName [] svc svc

/-- Azure oracle on which every call succeeds. -/
def envOK : AzureEnv :=
  { createOrUpdateErr := fun _ _ => none, deleteErr := fun _ _ => none }

/-- Azure oracle on which deleting an A record set fails and everything else
succeeds. -/
def envDelAErr : AzureEnv :=
  { createOrUpdateErr := fun _ _ => none
    deleteErr := fun _ k => if k = RecordKind.A then some ("throttled") else none }

/-- Effect oracle on which every reconciler call succeeds. -/
def effAllOK : Effects :=
  { dnsDelete := fun _ => none, dnsUpsert := fun _ _ => none, kubeUpdate := fun _ => none }

/-- Effect oracle on which the DNS delete call fails and everything else
succeeds. -/
def effDelErr : Effects :=
  { dnsDelete := fun _ => some ("throttled"), dnsUpsert := fun _ _ => none
    kubeUpdate := fun _ => none }

/-- A non-headless Service being deleted, with the finalizer present. -/
def svcWeb : Service :=
  { name := "web", namespaceName := "default", clusterIP := "10.0.0.5"
    clusterIPs := ["10.0.0.5"], deletionTimestamp := some ("2026-01-01")
    finalizers := ["dns.azure.com"] }

/-- A live non-headless Service. -/
def svcApi1 : Service :=
  { name := "api", namespaceName := "prod", clusterIP := "10.0.0.7"
    clusterIPs := ["10.0.0.7"], deletionTimestamp := none, finalizers := [] }

/-- A Service agreeing with `svcApi1` on name and namespace only. -/
def svcApi2 : Service :=
  { name := "api", namespaceName := "prod", clusterIP := "10.9.9.9"
    clusterIPs := ["10.9.9.9", "fd00::1"], deletionTimestamp := some ("ts")
    finalizers := ["dns.azure.com"] }

/-- A headless Service. -/
def svcHeadless : Service :=
  { name := "hl", namespaceName := "default", clusterIP := "None"
    clusterIPs := [], deletionTimestamp := none, finalizers := [] }

/-- A zone already holding an A record set for `web.default.svc`. -/
def zStale : Zone :=
  [(("web.default.svc", RecordKind.A), { ttl := 300, addrs := ["10.0.0.5"] })]

/-- A string that is not a well-formed IP address of either family. -/
def notIP : String := "not-an-ip"

/-- The zone produced by upserting `["10.0.0.5", "fd00::1"]` at
`web.default.svc` into the empty zone. -/
def zBoth : Zone :=
  [(("web.default.svc", RecordKind.A), { ttl := 300, addrs := ["10.0.0.5"] }),
   (("web.default.svc", RecordKind.AAAA), { ttl := 300, addrs := ["fd00::1"] })]

theorem zoneGet_zoneSet_self (z : Zone) (k : String × RecordKind) (v : RecordSet) :
    zoneGet (zoneSet z k v) k = some v := by
  induction z with
  | nil => simp [zoneSet, zoneGet]
  | cons hd tl ih =>
    obtain ⟨k', v'⟩ := hd
    by_cases h : k' = k
    · simp [zoneSet, zoneGet, h]
    · simp [zoneSet, zoneGet, h, ih]

theorem zoneGet_zoneSet_ne (z : Zone) (k k₂ : String × RecordKind) (v : RecordSet)
    (h : k₂ ≠ k) : zoneGet (zoneSet z k v) k₂ = zoneGet z k₂ := by
  induction z with
  | nil => simp [zoneSet, zoneGet, Ne.symm h]
  | cons hd tl ih =>
    obtain ⟨k', v'⟩ := hd
    by_cases h' : k' = k
    · subst h'
      simp [zoneSet, zoneGet, Ne.symm h]
    · simp [zoneSet, zoneGet, h', ih]

theorem zoneSet_eq_of_zoneGet (z : Zone) (k : String × RecordKind) (v : RecordSet)
    (h : zoneGet z k = some v) : zoneSet z k v = z := by
  induction z with
  | nil => simp [zoneGet] at h
  | cons hd tl ih =>
    obtain ⟨k', v'⟩ := hd
    by_cases h' : k' = k
    · subst h'
      simp [zoneGet] at h
      simp [zoneSet, h]
    · simp [zoneGet, h'] at h
      simp [zoneSet, h', ih h]

theorem AddFinalizer_clusterIPs (s : Service) (f : String) :
    (AddFinalizer s f).clusterIPs = s.clusterIPs := by
  unfold AddFinalizer
  split <;> rfl

theorem mem_classifyAddrs_fst (ips : List String) (x : String) :
    x ∈ (classifyAddrs ips).1 ↔ x ∈ ips ∧ stringsCount x ':' < 2 := by
  induction ips with
  | nil => simp [classifyAddrs]
  | cons ip rest ih =>
    by_cases hc : 2 ≤ stringsCount ip ':'
    · simp only [classifyAddrs, if_pos hc, List.mem_cons, ih]
      constructor
      · rintro ⟨hx, hlt⟩
        exact ⟨Or.inr hx, hlt⟩
      · rintro ⟨rfl | hx, hlt⟩
        · omega
        · exact ⟨hx, hlt⟩
    · simp only [classifyAddrs, if_neg hc, List.mem_cons, ih]
      constructor
      · rintro (rfl | ⟨hx, hlt⟩)
        · exact ⟨Or.inl rfl, by omega⟩
        · exact ⟨Or.inr hx, hlt⟩
      · rintro ⟨rfl | hx, hlt⟩
        · exact Or.inl rfl
        · exact Or.inr ⟨hx, hlt⟩

theorem mem_classifyAddrs_snd (ips : List String) (x : String) :
    x ∈ (classifyAddrs ips).2 ↔ x ∈ ips ∧ 2 ≤ stringsCount x ':' := by
  induction ips with
  | nil => simp [classifyAddrs]
  | cons ip rest ih =>
    by_cases hc : 2 ≤ stringsCount ip ':'
    · simp only [classifyAddrs, if_pos hc, List.mem_cons, ih]
      constructor
      · rintro (rfl | ⟨hx, hle⟩)
        · exact ⟨Or.inl rfl, hc⟩
        · exact ⟨Or.inr hx, hle⟩
      · rintro ⟨rfl | hx, hle⟩
        · exact Or.inl rfl
        · exact Or.inr ⟨hx, hle⟩
    · simp only [classifyAddrs, if_neg hc, List.mem_cons, ih]
      constructor
      · rintro ⟨hx, hle⟩
        exact ⟨Or.inr hx, hle⟩
      · rintro ⟨rfl | hx, hle⟩
        · omega
        · exact ⟨hx, hle⟩

theorem converge_trace_eq (eff : Effects) (nm : String) (tr : List Event)
    (svc stored : Service) :
    (converge eff nm tr svc stored).trace
        = tr ++ [Event.kubeUpdate (AddFinalizer svc finalizer)]
  ∨ (converge eff nm tr svc stored).trace
        = tr ++ [Event.kubeUpdate (AddFinalizer svc finalizer),
                 Event.dnsUpsert nm (AddFinalizer svc finalizer).clusterIPs] := by
  rcases h1 : eff.kubeUpdate (AddFinalizer svc finalizer) with _ | e1
  · rcases h2 : eff.dnsUpsert nm (AddFinalizer svc finalizer).clusterIPs with _ | e2
    · right
      simp [converge, h1, h2]
    · right
      simp [converge, h1, h2]
  · left
    simp [converge, h1]

theorem reconcile_event_name (eff : Effects) (svc : Service) (e : Event)
    (he : e ∈ (Reconcile eff svc).trace) :
    (∃ s, e = Event.kubeUpdate s)
  ∨ e = Event.dnsDelete (resolveServiceDNSName svc)
  ∨ ∃ ips, e = Event.dnsUpsert (resolveServiceDNSName svc) ips := by
  by_cases h0 : svc.clusterIP = "None"
  · simp [Reconcile, h0] at he
  · by_cases h1 : svc.deletionTimestamp.isSome = true
    · by_cases h2 : ContainsFinalizer svc finalizer = true
      · rcases hd : eff.dnsDelete (resolveServiceDNSName svc) with _ | ed
        · rcases hu : eff.kubeUpdate (RemoveFinalizer svc finalizer) with _ | eu
          · have htr : (Reconcile eff svc).trace =
                (converge eff (resolveServiceDNSName svc)
                  [Event.dnsDelete (resolveServiceDNSName svc),
                   Event.kubeUpdate (RemoveFinalizer svc finalizer)]
                  (RemoveFinalizer svc finalizer) (RemoveFinalizer svc finalizer)).trace := by
              simp [Reconcile, h0, h1, h2, hd, hu]
            rw [htr] at he
            rcases converge_trace_eq eff (resolveServiceDNSName svc)
                [Event.dnsDelete (resolveServiceDNSName svc),
                 Event.kubeUpdate (RemoveFinalizer svc finalizer)]
                (RemoveFinalizer svc finalizer) (RemoveFinalizer svc finalizer) with hcv | hcv
            · rw [hcv] at he
              simp only [List.mem_append, List.mem_cons,
                List.not_mem_nil, or_false] at he
              rcases he with (rfl | rfl) | rfl
              · exact Or.inr (Or.inl rfl)
              · exact Or.inl ⟨_, rfl⟩
              · exact Or.inl ⟨_, rfl⟩
            · rw [hcv] at he
              simp only [List.mem_append, List.mem_cons,
                List.not_mem_nil, or_false] at he
              rcases he with (rfl | rfl) | (rfl | rfl)
              · exact Or.inr (Or.inl rfl)
              · exact Or.inl ⟨_, rfl⟩
              · exact Or.inl ⟨_, rfl⟩
              · exact Or.inr (Or.inr ⟨_, rfl⟩)
          · have htr : (Reconcile eff svc).trace =
                [Event.dnsDelete (resolveServiceDNSName svc),
                 Event.kubeUpdate (RemoveFinalizer svc finalizer)] := by
              simp [Reconcile, h0, h1, h2, hd, hu]
            rw [htr] at he
            simp only [List.mem_cons, List.not_mem_nil, or_false] at he
            rcases he with rfl | rfl
            · exact Or.inr (Or.inl rfl)
            · exact Or.inl ⟨_, rfl⟩
        · have htr : (Reconcile eff svc).trace =
              [Event.dnsDelete (resolveServiceDNSName svc)] := by
            simp [Reconcile, h0, h1, h2, hd]
          rw [htr] at he
          simp only [List.mem_cons, List.not_mem_nil, or_false] at he
          rcases he with rfl
          exact Or.inr (Or.inl rfl)
      · have htr : (Reconcile eff svc).trace = [] := by
          simp [Reconcile, h0, h1, h2]
        rw [htr] at he
        simp at he
    · have htr : (Reconcile eff svc).trace =
          (converge eff (resolveServiceDNSName svc) [] svc svc).trace := by
        simp [Reconcile, h0, h1]
      rw [htr] at he
      rcases converge_trace_eq eff (resolveServiceDNSName svc) [] svc svc with hcv | hcv
      · rw [hcv] at he
        simp only [List.nil_append, List.mem_cons, List.not_mem_nil, or_false] at he
        rcases he with rfl
        exact Or.inl ⟨_, rfl⟩
      · rw [hcv] at he
        simp only [List.nil_append, List.mem_cons, List.not_mem_nil, or_false] at he
        rcases he with rfl | rfl
        · exact Or.inl ⟨_, rfl⟩
        · exact Or.inr (Or.inr ⟨_, rfl⟩)

/-- C4: a headless Service (`spec.ClusterIP == "None"`) gets no upsert or
delete call to the Zone Client, no finalizer, no Service `Update`, and the
reconcile returns success leaving the Service unchanged. -/
theorem reconcile_headless_skip (eff : Effects) (svc : Service)
    (h : svc.clusterIP = "None") :
    Reconcile eff svc = { trace := [], err := none, stored := svc } := by
  simp [Reconcile, h]

/-- Witness for `reconcile_headless_skip` at a concrete headless Service. -/
theorem reconcile_headless_skip_witness :
    svcHeadless.clusterIP = "None"
  ∧ Reconcile effAllOK svcHeadless = { trace := [], err := none, stored := svcHeadless } :=
  ⟨rfl, reconcile_headless_skip effAllOK svcHeadless rfl⟩

/-- C1: for a non-headless Service being deleted with the finalizer present,
the reconcile issues the Zone Client delete for the resolved name first; on a
delete error it returns that error with no `Update` issued, so the persisted
Service and its finalizer are unchanged; on delete success the very next call
is the `Update` persisting the finalizer removal, and if that `Update` fails
the persisted Service is still unchanged. Headless Services return before
this path. -/
theorem reconcile_delete_gates_finalizer_removal (eff : Effects) (svc : Service)
    (h1 : ¬ svc.clusterIP = "None") (h2 : svc.deletionTimestamp.isSome = true)
    (h3 : ContainsFinalizer svc finalizer = true) :
    (∀ e, eff.dnsDelete (resolveServiceDNSName svc) = some e →
      Reconcile eff svc =
        { trace := [Event.dnsDelete (resolveServiceDNSName svc)]
          err := some e, stored := svc })
  ∧ (∀ e, eff.dnsDelete (resolveServiceDNSName svc) = none →
      eff.kubeUpdate (RemoveFinalizer svc finalizer) = some e →
      Reconcile eff svc =
        { trace := [Event.dnsDelete (resolveServiceDNSName svc),
                    Event.kubeUpdate (RemoveFinalizer svc finalizer)]
          err := some e, stored := svc })
  ∧ (eff.dnsDelete (resolveServiceDNSName svc) = none →
      (Reconcile eff svc).trace.take 2 =
        [Event.dnsDelete (resolveServiceDNSName svc),
         Event.kubeUpdate (RemoveFinalizer svc finalizer)]) := by
  refine ⟨?_, ?_, ?_⟩
  · intro e hd
    simp [Reconcile, h1, h2, h3, hd]
  · intro e hd hu
    simp [Reconcile, h1, h2, h3, hd, hu]
  · intro hd
    rcases hu : eff.kubeUpdate (RemoveFinalizer svc finalizer) with _ | eu
    · have htr : (Reconcile eff svc).trace =
          (converge eff (resolveServiceDNSName svc)
            [Event.dnsDelete (resolveServiceDNSName svc),
             Event.kubeUpdate (RemoveFinalizer svc finalizer)]
            (RemoveFinalizer svc finalizer) (RemoveFinalizer svc finalizer)).trace := by
        simp [Reconcile, h1, h2, h3, hd, hu]
      rw [htr]
      rcases converge_trace_eq eff (resolveServiceDNSName svc)
          [Event.dnsDelete (resolveServiceDNSName svc),
           Event.kubeUpdate (RemoveFinalizer svc finalizer)]
          (RemoveFinalizer svc finalizer) (RemoveFinalizer svc finalizer) with hcv | hcv
    -- in both cases the converge trace extends the two-element prefix
      · rw [hcv]
        rfl
      · rw [hcv]
        rfl
    · simp [Reconcile, h1, h2, h3, hd, hu]

/-- Witness for `reconcile_delete_gates_finalizer_removal`: on a transient
delete error the reconcile returns the error and the stored Service keeps the
finalizer. -/
theorem reconcile_delete_gates_finalizer_removal_witness :
    (¬ svcWeb.clusterIP = "None")
  ∧ svcWeb.deletionTimestamp.isSome = true
  ∧ ContainsFinalizer svcWeb finalizer = true
  ∧ Reconcile effDelErr svcWeb =
      { trace := [Event.dnsDelete (resolveServiceDNSName svcWeb)]
        err := some ("throttled"), stored := svcWeb } :=
  ⟨by decide, rfl, by decide,
   (reconcile_delete_gates_finalizer_removal effDelErr svcWeb (by decide) rfl
      (by decide)).1 ("throttled") rfl⟩

/-- C3: for a non-headless Service not being deleted, the reconcile first
issues the `Update` persisting the added finalizer; if that `Update` fails,
the reconcile returns its error with no upsert call made and the persisted
Service unchanged; if it succeeds, the upsert call comes after it. -/
theorem reconcile_finalizer_before_upsert (eff : Effects) (svc : Service)
    (h1 : ¬ svc.clusterIP = "None") (h2 : svc.deletionTimestamp = none) :
    (∀ e, eff.kubeUpdate (AddFinalizer svc finalizer) = some e →
      Reconcile eff svc =
        { trace := [Event.kubeUpdate (AddFinalizer svc finalizer)]
          err := some e, stored := svc })
  ∧ (eff.kubeUpdate (AddFinalizer svc finalizer) = none →
      (Reconcile eff svc).trace =
        [Event.kubeUpdate (AddFinalizer svc finalizer),
         Event.dnsUpsert (resolveServiceDNSName svc) svc.clusterIPs]) := by
  constructor
  · intro e hu
    simp [Reconcile, converge, h1, h2, hu]
  · intro hu
    rcases hup : eff.dnsUpsert (resolveServiceDNSName svc) svc.clusterIPs with _ | e2
    · simp [Reconcile, converge, h1, h2, hu, hup, AddFinalizer_clusterIPs]
    · simp [Reconcile, converge, h1, h2, hu, hup, AddFinalizer_clusterIPs]

/-- Witness for `reconcile_finalizer_before_upsert` at a concrete live
Service with every call succeeding. -/
theorem reconcile_finalizer_before_upsert_witness :
    (¬ svcApi1.clusterIP = "None")
  ∧ svcApi1.deletionTimestamp = none
  ∧ (Reconcile effAllOK svcApi1).trace =
      [Event.kubeUpdate (AddFinalizer svcApi1 finalizer),
       Event.dnsUpsert (resolveServiceDNSName svcApi1) svcApi1.clusterIPs] :=
  ⟨by decide, rfl,
   (reconcile_finalizer_before_upsert effAllOK svcApi1 (by decide) rfl).2 rfl⟩

/-- C2, behavior of the code at the failing input: a non-headless Service
being deleted with the finalizer present, on which every collaborator call
succeeds, receives — after the DNS delete and the finalizer-removal
`Update` — a second `Update` re-adding the finalizer and an upsert call,
because the deletion branch does not return but falls through into the
convergence tail; the reconcile ends with the finalizer persisted again. -/
theorem reconcile_deleting_falls_through :
    Reconcile effAllOK svcWeb =
      { trace := [Event.dnsDelete ("web.default.svc"),
                  Event.kubeUpdate { svcWeb with finalizers := [] },
                  Event.kubeUpdate svcWeb,
                  Event.dnsUpsert ("web.default.svc") (["10.0.0.5"])]
        err := none, stored := svcWeb }
  ∧ ContainsFinalizer (Reconcile effAllOK svcWeb).stored finalizer = true := by
  constructor
  · decide
  · decide

/-- C9: the DNS name is a deterministic pure function of the Service's name
and namespace only — `<service>.<namespace>.svc` — and every DNS delete or
upsert call issued by a reconcile, whatever the Service's state and the
outcome of the calls, uses exactly that name. -/
theorem resolveServiceDNSName_deterministic (s t : Service) (eff : Effects)
    (n : String) (ips : List String)
    (h1 : s.name = t.name) (h2 : s.namespaceName = t.namespaceName) :
    resolveServiceDNSName s = resolveServiceDNSName t
  ∧ resolveServiceDNSName s = s.name ++ "." ++ s.namespaceName ++ ".svc"
  ∧ (Event.dnsDelete n ∈ (Reconcile eff s).trace → n = resolveServiceDNSName s)
  ∧ (Event.dnsUpsert n ips ∈ (Reconcile eff s).trace → n = resolveServiceDNSName s) := by
  refine ⟨by simp [resolveServiceDNSName, h1, h2], rfl, ?_, ?_⟩
  · intro he
    rcases reconcile_event_name eff s _ he with ⟨s', hs⟩ | hd | ⟨ips', hu⟩
    · simp at hs
    · injection hd with h
    · simp at hu
  · intro he
    rcases reconcile_event_name eff s _ he with ⟨s', hs⟩ | hd | ⟨ips', hu⟩
    · simp at hs
    · simp at hd
    · injection hu with h h'

/-- Witness for `resolveServiceDNSName_deterministic`: two Services agreeing
only on name and namespace resolve to the same name, `api.prod.svc`. -/
theorem resolveServiceDNSName_deterministic_witness :
    svcApi1.name = svcApi2.name
  ∧ svcApi1.namespaceName = svcApi2.namespaceName
  ∧ resolveServiceDNSName svcApi1 = resolveServiceDNSName svcApi2
  ∧ resolveServiceDNSName svcApi1 = "api.prod.svc" :=
  ⟨rfl, rfl,
   (resolveServiceDNSName_deterministic svcApi1 svcApi2 effAllOK ("x") [] rfl rfl).1,
   by decide⟩

/-- C6 amended: the classification inside `UpsertDNSRecords` partitions every
input address — an address goes to the IPv6 bucket iff it contains at least
two colons (three or more colon-separated groups), otherwise to the IPv4
bucket; the buckets are disjoint and their union as sets is the whole input:
malformed entries are not removed. -/
theorem classifyAddrs_partition (ips : List String) (x : String) :
    (x ∈ (classifyAddrs ips).1 ↔ x ∈ ips ∧ stringsCount x ':' < 2)
  ∧ (x ∈ (classifyAddrs ips).2 ↔ x ∈ ips ∧ 2 ≤ stringsCount x ':')
  ∧ ¬ (x ∈ (classifyAddrs ips).1 ∧ x ∈ (classifyAddrs ips).2)
  ∧ (x ∈ (classifyAddrs ips).1 ++ (classifyAddrs ips).2 ↔ x ∈ ips) := by
  refine ⟨mem_classifyAddrs_fst ips x, mem_classifyAddrs_snd ips x, ?_, ?_⟩
  · rintro ⟨h4, h6⟩
    obtain ⟨-, hlt⟩ := (mem_classifyAddrs_fst ips x).mp h4
    obtain ⟨-, hle⟩ := (mem_classifyAddrs_snd ips x).mp h6
    omega
  · rw [List.mem_append, mem_classifyAddrs_fst, mem_classifyAddrs_snd]
    constructor
    · rintro (⟨hx, -⟩ | ⟨hx, -⟩) <;> exact hx
    · intro hx
      by_cases hc : 2 ≤ stringsCount x ':'
      · exact Or.inr ⟨hx, hc⟩
      · exact Or.inl ⟨hx, by omega⟩

/-- C6 counterexample: the string `"1:2"` consists of exactly two
colon-separated groups (one colon), yet the classifier places it in the IPv4
bucket, not the IPv6 bucket, and does not drop it although it is not a
well-formed address of either family. -/
theorem classifyAddrs_two_groups_cex :
    classifyAddrs [("1:2")] = ([("1:2")], [])
  ∧ (splitGroups ':' (("1:2").toList)).length = 2
  ∧ stringsCount ("1:2") ':' = 1 :=
  ⟨by decide, by decide, by decide⟩

/-- Witness for `classifyAddrs_partition` at a concrete dual-stack list and
address. -/
theorem classifyAddrs_partition_witness :
    (("fd00::1") ∈ (classifyAddrs ["10.0.0.5", "fd00::1"]).1 ↔
      ("fd00::1") ∈ (["10.0.0.5", "fd00::1"] : List String)
        ∧ stringsCount ("fd00::1") ':' < 2)
  ∧ (("fd00::1") ∈ (classifyAddrs ["10.0.0.5", "fd00::1"]).2 ↔
      ("fd00::1") ∈ (["10.0.0.5", "fd00::1"] : List String)
        ∧ 2 ≤ stringsCount ("fd00::1") ':')
  ∧ ¬ (("fd00::1") ∈ (classifyAddrs ["10.0.0.5", "fd00::1"]).1
        ∧ ("fd00::1") ∈ (classifyAddrs ["10.0.0.5", "fd00::1"]).2)
  ∧ (("fd00::1") ∈ (classifyAddrs ["10.0.0.5", "fd00::1"]).1
        ++ (classifyAddrs ["10.0.0.5", "fd00::1"]).2 ↔
      ("fd00::1") ∈ (["10.0.0.5", "fd00::1"] : List String)) :=
  classifyAddrs_partition (["10.0.0.5", "fd00::1"]) ("fd00::1")

/-- C5: a successful `UpsertDNSRecords` fully replaces the record set of each
non-empty bucket with a TTL-300 record set holding exactly that bucket, and
repeating the identical call on the resulting zone succeeds and leaves the
zone in the same state — no duplicate entries, no TTL change. -/
theorem UpsertDNSRecords_idempotent (env : AzureEnv) (z z1 : Zone) (n : String)
    (ips : List String) (h : UpsertDNSRecords env z n ips = (z1, none)) :
    UpsertDNSRecords env z1 n ips = (z1, none)
  ∧ (0 < (classifyAddrs ips).1.length →
      zoneGet z1 (n, RecordKind.A)
        = some { ttl := 300, addrs := (classifyAddrs ips).1 })
  ∧ (0 < (classifyAddrs ips).2.length →
      zoneGet z1 (n, RecordKind.AAAA)
        = some { ttl := 300, addrs := (classifyAddrs ips).2 }) := by
  have hAB : ((n, RecordKind.A) : String × RecordKind) ≠ (n, RecordKind.AAAA) := by simp
  by_cases h4 : 0 < (classifyAddrs ips).1.length
  · rcases hA : env.createOrUpdateErr n RecordKind.A with _ | eA
    · by_cases h6 : 0 < (classifyAddrs ips).2.length
      · rcases hB : env.createOrUpdateErr n RecordKind.AAAA with _ | eB
        · have hz1 : z1 = zoneSet (zoneSet z (n, RecordKind.A)
              { ttl := 300, addrs := (classifyAddrs ips).1 }) (n, RecordKind.AAAA)
              { ttl := 300, addrs := (classifyAddrs ips).2 } := by
            simp [UpsertDNSRecords, createOrUpdateARecordSet, createOrUpdateAAAARecordSet,
              createOrUpdate, h4, h6, hA, hB] at h
            exact h.symm
          have hgA : zoneGet z1 (n, RecordKind.A)
              = some { ttl := 300, addrs := (classifyAddrs ips).1 } := by
            rw [hz1, zoneGet_zoneSet_ne _ _ _ _ hAB, zoneGet_zoneSet_self]
          have hgB : zoneGet z1 (n, RecordKind.AAAA)
              = some { ttl := 300, addrs := (classifyAddrs ips).2 } := by
            rw [hz1, zoneGet_zoneSet_self]
          refine ⟨?_, fun _ => hgA, fun _ => hgB⟩
          simp [UpsertDNSRecords, createOrUpdateARecordSet, createOrUpdateAAAARecordSet,
            createOrUpdate, h4, h6, hA, hB, zoneSet_eq_of_zoneGet _ _ _ hgA,
            zoneSet_eq_of_zoneGet _ _ _ hgB]
        · simp [UpsertDNSRecords, createOrUpdateARecordSet, createOrUpdateAAAARecordSet,
            createOrUpdate, h4, h6, hA, hB] at h
      · have hz1 : z1 = zoneSet z (n, RecordKind.A)
            { ttl := 300, addrs := (classifyAddrs ips).1 } := by
          simp [UpsertDNSRecords, createOrUpdateARecordSet, createOrUpdateAAAARecordSet,
            createOrUpdate, h4, h6, hA] at h
          exact h.symm
        have hgA : zoneGet z1 (n, RecordKind.A)
            = some { ttl := 300, addrs := (classifyAddrs ips).1 } := by
          rw [hz1, zoneGet_zoneSet_self]
        refine ⟨?_, fun _ => hgA, fun h6' => absurd h6' h6⟩
        simp [UpsertDNSRecords, createOrUpdateARecordSet, createOrUpdateAAAARecordSet,
          createOrUpdate, h4, h6, hA, zoneSet_eq_of_zoneGet _ _ _ hgA]
    · simp [UpsertDNSRecords, createOrUpdateARecordSet, createOrUpdateAAAARecordSet,
        createOrUpdate, h4, hA] at h
  · by_cases h6 : 0 < (classifyAddrs ips).2.length
    · rcases hB : env.createOrUpdateErr n RecordKind.AAAA with _ | eB
      · have hz1 : z1 = zoneSet z (n, RecordKind.AAAA)
            { ttl := 300, addrs := (classifyAddrs ips).2 } := by
          simp [UpsertDNSRecords, createOrUpdateARecordSet, createOrUpdateAAAARecordSet,
            createOrUpdate, h4, h6, hB] at h
          exact h.symm
        have hgB : zoneGet z1 (n, RecordKind.AAAA)
            = some { ttl := 300, addrs := (classifyAddrs ips).2 } := by
          rw [hz1, zoneGet_zoneSet_self]
        refine ⟨?_, fun h4' => absurd h4' h4, fun _ => hgB⟩
        simp [UpsertDNSRecords, createOrUpdateARecordSet, createOrUpdateAAAARecordSet,
          createOrUpdate, h4, h6, hB, zoneSet_eq_of_zoneGet _ _ _ hgB]
      · simp [UpsertDNSRecords, createOrUpdateARecordSet, createOrUpdateAAAARecordSet,
          createOrUpdate, h4, h6, hB] at h
    · have hz1 : z1 = z := by
        simp [UpsertDNSRecords, h4, h6] at h
        exact h.symm
      subst hz1
      exact ⟨by simp [UpsertDNSRecords, h4, h6],
        fun h4' => absurd h4' h4, fun h6' => absurd h6' h6⟩

/-- Witness for `UpsertDNSRecords_idempotent` at a concrete dual-stack
address list. -/
theorem UpsertDNSRecords_idempotent_witness :
    UpsertDNSRecords envOK [] ("web.default.svc") (["10.0.0.5", "fd00::1"]) = (zBoth, none)
  ∧ (UpsertDNSRecords envOK zBoth ("web.default.svc") (["10.0.0.5", "fd00::1"]) = (zBoth, none)
  ∧ (0 < (classifyAddrs ["10.0.0.5", "fd00::1"]).1.length →
      zoneGet zBoth (("web.default.svc"), RecordKind.A)
        = some { ttl := 300, addrs := (classifyAddrs ["10.0.0.5", "fd00::1"]).1 })
  ∧ (0 < (classifyAddrs ["10.0.0.5", "fd00::1"]).2.length →
      zoneGet zBoth (("web.default.svc"), RecordKind.AAAA)
        = some { ttl := 300, addrs := (classifyAddrs ["10.0.0.5", "fd00::1"]).2 })) :=
  ⟨by decide, UpsertDNSRecords_idempotent envOK [] zBoth ("web.default.svc")
    (["10.0.0.5", "fd00::1"]) (by decide)⟩

/-- C7 amended: the record-building path performs no validity check — every
input address, malformed or not, ends up in the record set upserted for its
colon-count bucket, and when the provider accepts the calls no error is
returned: a malformed address neither fails the batch nor is excluded, and
the rest of the batch is upserted in the same call. -/
theorem UpsertDNSRecords_keeps_malformed (env : AzureEnv) (z : Zone) (n : String)
    (ips : List String) (ip : String)
    (hA : env.createOrUpdateErr n RecordKind.A = none)
    (hB : env.createOrUpdateErr n RecordKind.AAAA = none)
    (hip : ip ∈ ips) :
    (UpsertDNSRecords env z n ips).2 = none
  ∧ ip ∈ zoneAddrs (UpsertDNSRecords env z n ips).1 (n, RecordKind.A)
        ++ zoneAddrs (UpsertDNSRecords env z n ips).1 (n, RecordKind.AAAA) := by
  by_cases hc : 2 ≤ stringsCount ip ':'
  · have hip6 : ip ∈ (classifyAddrs ips).2 := (mem_classifyAddrs_snd ips ip).mpr ⟨hip, hc⟩
    have h6 : 0 < (classifyAddrs ips).2.length :=
      List.length_pos.mpr (List.ne_nil_of_mem hip6)
    by_cases h4 : 0 < (classifyAddrs ips).1.length
    · have hres : (UpsertDNSRecords env z n ips).1
          = zoneSet (zoneSet z (n, RecordKind.A)
              { ttl := 300, addrs := (classifyAddrs ips).1 }) (n, RecordKind.AAAA)
              { ttl := 300, addrs := (classifyAddrs ips).2 } := by
        simp [UpsertDNSRecords, createOrUpdateARecordSet, createOrUpdateAAAARecordSet,
          createOrUpdate, h4, h6, hA, hB]
      refine ⟨by simp [UpsertDNSRecords, createOrUpdateARecordSet,
        createOrUpdateAAAARecordSet, createOrUpdate, h4, h6, hA, hB], ?_⟩
      rw [hres]
      refine List.mem_append.mpr (Or.inr ?_)
      simpa [zoneAddrs, zoneGet_zoneSet_self] using hip6
    · have hres : (UpsertDNSRecords env z n ips).1
          = zoneSet z (n, RecordKind.AAAA)
              { ttl := 300, addrs := (classifyAddrs ips).2 } := by
        simp [UpsertDNSRecords, createOrUpdateARecordSet, createOrUpdateAAAARecordSet,
          createOrUpdate, h4, h6, hB]
      refine ⟨by simp [UpsertDNSRecords, createOrUpdateARecordSet,
        createOrUpdateAAAARecordSet, createOrUpdate, h4, h6, hB], ?_⟩
      rw [hres]
      refine List.mem_append.mpr (Or.inr ?_)
      simpa [zoneAddrs, zoneGet_zoneSet_self] using hip6
  · have hip4 : ip ∈ (classifyAddrs ips).1 :=
      (mem_classifyAddrs_fst ips ip).mpr ⟨hip, by omega⟩
    have h4 : 0 < (classifyAddrs ips).1.length :=
      List.length_pos.mpr (List.ne_nil_of_mem hip4)
    have hAB : ((n, RecordKind.A) : String × RecordKind) ≠ (n, RecordKind.AAAA) := by simp
    by_cases h6 : 0 < (classifyAddrs ips).2.length
    · have hres : (UpsertDNSRecords env z n ips).1
          = zoneSet (zoneSet z (n, RecordKind.A)
              { ttl := 300, addrs := (classifyAddrs ips).1 }) (n, RecordKind.AAAA)
              { ttl := 300, addrs := (classifyAddrs ips).2 } := by
        simp [UpsertDNSRecords, createOrUpdateARecordSet, createOrUpdateAAAARecordSet,
          createOrUpdate, h4, h6, hA, hB]
      refine ⟨by simp [UpsertDNSRecords, createOrUpdateARecordSet,
        createOrUpdateAAAARecordSet, createOrUpdate, h4, h6, hA, hB], ?_⟩
      rw [hres]
      refine List.mem_append.mpr (Or.inl ?_)
      simpa [zoneAddrs, zoneGet_zoneSet_ne _ _ _ _ hAB, zoneGet_zoneSet_self] using hip4
    · have hres : (UpsertDNSRecords env z n ips).1
          = zoneSet z (n, RecordKind.A)
              { ttl := 300, addrs := (classifyAddrs ips).1 } := by
        simp [UpsertDNSRecords, createOrUpdateARecordSet, createOrUpdateAAAARecordSet,
          createOrUpdate, h4, h6, hA]
      refine ⟨by simp [UpsertDNSRecords, createOrUpdateARecordSet,
        createOrUpdateAAAARecordSet, createOrUpdate, h4, h6, hA], ?_⟩
      rw [hres]
      refine List.mem_append.mpr (Or.inl ?_)
      simpa [zoneAddrs, zoneGet_zoneSet_self] using hip4

/-- Witness for `UpsertDNSRecords_keeps_malformed` at the concrete malformed
address `"not-an-ip"`. -/
theorem UpsertDNSRecords_keeps_malformed_witness :
    envOK.createOrUpdateErr ("svc.ns.svc") RecordKind.A = none
  ∧ envOK.createOrUpdateErr ("svc.ns.svc") RecordKind.AAAA = none
  ∧ notIP ∈ [notIP]
  ∧ ((UpsertDNSRecords envOK [] ("svc.ns.svc") [notIP]).2 = none
     ∧ notIP ∈ zoneAddrs (UpsertDNSRecords envOK [] ("svc.ns.svc") [notIP]).1
            (("svc.ns.svc"), RecordKind.A)
          ++ zoneAddrs (UpsertDNSRecords envOK [] ("svc.ns.svc") [notIP]).1
            (("svc.ns.svc"), RecordKind.AAAA)) :=
  ⟨rfl, rfl, by decide,
   UpsertDNSRecords_keeps_malformed envOK [] ("svc.ns.svc") [notIP] notIP rfl rfl
     (by decide)⟩

/-- C7 counterexample: the malformed address string `"not-an-ip"` is not
dropped from the record-building path — the upserted A record set contains it
verbatim, with no error. -/
theorem UpsertDNSRecords_malformed_included_cex :
    UpsertDNSRecords envOK [] ("svc.ns.svc") [notIP]
      = ([((("svc.ns.svc"), RecordKind.A), { ttl := 300, addrs := [notIP] })], none) := by
  decide

/-- C8 amended: an empty address list makes `UpsertDNSRecords` a no-op — no
create, update, or delete call is issued and the zone is returned unchanged
with no error, so existing records for the name stay in place. -/
theorem UpsertDNSRecords_empty_noop (env : AzureEnv) (z : Zone) (n : String) :
    UpsertDNSRecords env z n [] = (z, none) := by
  simp [UpsertDNSRecords, classifyAddrs]

/-- C8 counterexample: with an A record set already stored for
`web.default.svc`, upserting an empty address list for that name leaves the
record set in the zone — no record removal happens. -/
theorem UpsertDNSRecords_empty_leaves_stale_cex :
    UpsertDNSRecords envOK zStale ("web.default.svc") [] = (zStale, none)
  ∧ zoneGet ((UpsertDNSRecords envOK zStale ("web.default.svc") []).1)
      (("web.default.svc"), RecordKind.A)
      = some { ttl := 300, addrs := ["10.0.0.5"] } :=
  ⟨by decide, by decide⟩

/-- C10: `DeleteDNSRecords` issues the A record-set deletion first; on an A
error it stops — the AAAA deletion is not attempted and the zone, in
particular the AAAA record set for the name, is untouched — and reports the
error; on A success the AAAA deletion follows; the returned error is `nil`
exactly when both deletions succeed; an A-success/AAAA-failure leaves the
partial delete (A removed, AAAA kept) and reports the error. -/
theorem DeleteDNSRecords_order (env : AzureEnv) (z : Zone) (n : String) :
    (∀ e, env.deleteErr n RecordKind.A = some e →
      DeleteDNSRecords env z n =
        { attempts := [(n, RecordKind.A)], zone := z
          err := some (("error deleting A records: ") ++ e) })
  ∧ (env.deleteErr n RecordKind.A = none →
      (DeleteDNSRecords env z n).attempts = [(n, RecordKind.A), (n, RecordKind.AAAA)])
  ∧ ((DeleteDNSRecords env z n).err = none ↔
      env.deleteErr n RecordKind.A = none ∧ env.deleteErr n RecordKind.AAAA = none)
  ∧ (∀ e, env.deleteErr n RecordKind.A = none →
      env.deleteErr n RecordKind.AAAA = some e →
      DeleteDNSRecords env z n =
        { attempts := [(n, RecordKind.A), (n, RecordKind.AAAA)]
          zone := zoneRemove z (n, RecordKind.A)
          err := some (("error deleting AAAA records: ") ++ e) }) := by
  refine ⟨?_, ?_, ?_, ?_⟩
  · intro e hA
    simp [DeleteDNSRecords, hA]
  · intro hA
    rcases hB : env.deleteErr n RecordKind.AAAA with _ | eB <;>
      simp [DeleteDNSRecords, hA, hB]
  · rcases hA : env.deleteErr n RecordKind.A with _ | eA
    · rcases hB : env.deleteErr n RecordKind.AAAA with _ | eB <;>
        simp [DeleteDNSRecords, hA, hB]
    · simp [DeleteDNSRecords, hA]
  · intro e hA hB
    simp [DeleteDNSRecords, hA, hB]

/-- Witness for `DeleteDNSRecords_order` at a concrete environment whose A
deletion is throttled. -/
theorem DeleteDNSRecords_order_witness :
    (∀ e, envDelAErr.deleteErr ("web.default.svc") RecordKind.A = some e →
      DeleteDNSRecords envDelAErr zStale ("web.default.svc") =
        { attempts := [(("web.default.svc"), RecordKind.A)], zone := zStale
          err := some (("error deleting A records: ") ++ e) })
  ∧ (envDelAErr.deleteErr ("web.default.svc") RecordKind.A = none →
      (DeleteDNSRecords envDelAErr zStale ("web.default.svc")).attempts =
        [(("web.default.svc"), RecordKind.A), (("web.default.svc"), RecordKind.AAAA)])
  ∧ ((DeleteDNSRecords envDelAErr zStale ("web.default.svc")).err = none ↔
      envDelAErr.deleteErr ("web.default.svc") RecordKind.A = none
      ∧ envDelAErr.deleteErr ("web.default.svc") RecordKind.AAAA = none)
  ∧ (∀ e, envDelAErr.deleteErr ("web.default.svc") RecordKind.A = none →
      envDelAErr.deleteErr ("web.default.svc") RecordKind.AAAA = some e →
      DeleteDNSRecords envDelAErr zStale ("web.default.svc") =
        { attempts := [(("web.default.svc"), RecordKind.A),
                       (("web.default.svc"), RecordKind.AAAA)]
          zone := zoneRemove zStale (("web.default.svc"), RecordKind.A)
          err := some (("error deleting AAAA records: ") ++ e) }) :=
  DeleteDNSRecords_order envDelAErr zStale ("web.default.svc")

end AzureK8sDNS
